import Mathlib

/-!
Shallow embedding of the NECB table-extraction pipeline
(bluesky/mcp/scrapers/necb): the marker extractor's structure
normalization, the pymupdf extractor's confidence and validation, the
table cleaner, the schema registry, the LLM repair engine, and the
table-metadata extractor.  Python strings are modelled as Lean `String`
(operated on as `List Char`), Python ints as `Int`/`Nat`, Python floats
as `ℚ` (exact rationals standing in for IEEE doubles; all constants in
the source are short decimals), and external services (pdf libraries,
the Ollama client, `json.loads`, pydantic validation, `re`) as explicit
oracle parameters or as concrete re-implementations where the source
depends on the precise behaviour.
-/

namespace Necb

-- Batteries marks `Rat.mul` / `Rat.inv` irreducible; re-expose them so
-- concrete rational arithmetic evaluates inside `decide` proofs.
attribute [local semireducible] Rat.mul Rat.inv

/-! ### Python string primitives -/

/-- Characters stripped by Python's `str.strip()` / matched by `\s` (ASCII range). -/
def pyIsSpace (c : Char) : Bool :=
  c = ' ' || c = '\t' || c = '\n' || c = '\r' || c = '\x0b' || c = '\x0c'

/-- `str.strip()` on a character list. -/
def stripList (l : List Char) : List Char :=
  ((l.dropWhile pyIsSpace).reverse.dropWhile pyIsSpace).reverse

/-- Python `str.strip()`. -/
def pyStrip (s : String) : String :=
  (stripList s.toList).asString

/-- Substring test (`pat in s` for Python strings). -/
def containsSub (l pat : List Char) : Bool :=
  (List.range (l.length + 1)).any (fun i => pat.isPrefixOf (l.drop i))

/-- Python `s.startswith(p)` via character lists. -/
def pyStartsWith (s p : String) : Bool :=
  p.toList.isPrefixOf s.toList

/-- Python `s.lower()` (ASCII case folding, as used on the ASCII label set). -/
def pyLower (s : String) : String :=
  (s.toList.map Char.toLower).asString

/-- Python `str.split(sep)` for a single-character separator
(`"".split(sep) == [""]`, trailing separators yield trailing `""`). -/
def splitOnChar (sep : Char) : List Char → List (List Char)
  | [] => [[]]
  | c :: rest =>
    match splitOnChar sep rest with
    | [] => [[c]]
    | h :: t => if c = sep then [] :: h :: t else (c :: h) :: t

/-- Python `s.split("\n")`. -/
def pySplitNl (s : String) : List String :=
  (splitOnChar '\n' s.toList).map List.asString

/-- Python `max(a, b)` on ints, written out so the kernel can evaluate it. -/
def pyMaxInt (a b : Int) : Int := if a ≤ b then b else a

/-- Python `max(a, b)` on floats (rationals here). -/
def pyMaxQ (a b : ℚ) : ℚ := if a ≤ b then b else a

/-- Python `min(a, b)` on floats (rationals here). -/
def pyMinQ (a b : ℚ) : ℚ := if a ≤ b then a else b

/-- Python `min(a, b)` on non-negative ints. -/
def pyMinNat (a b : Nat) : Nat := if a ≤ b then a else b

/-! ### MarkerTable and `normalize_structure`
(from parser_v2/marker_extractor.py) -/

/-- `MarkerTable` dataclass from parser_v2/models.py (bounding boxes as rationals). -/
structure MarkerTable where
  cells : List (List String)
  headers : List String
  page_number : Int
  bboxes : Option (List (List ℚ)) := none
deriving DecidableEq, Repr

/-- Truthiness of `any(cell.strip() for cell in row)`. -/
def rowHasContent (row : List String) : Bool :=
  row.any (fun c => !(pyStrip c).isEmpty)

/-- The `header_row_idx` loop: first row with any non-blank cell, default 0. -/
def headerRowIdx (cells : List (List String)) : Nat :=
  (cells.findIdx? rowHasContent).getD 0

/-- `row + [""] * (max_cols - len(row))` (Nat subtraction mirrors Python's
empty list for a non-positive multiplier). -/
def padTo (n : Nat) (row : List String) : List String :=
  row ++ List.replicate (n - row.length) ""

/-- `max(len(row) for row in [headers] + data_rows) if data_rows else len(headers)`. -/
def maxColsOf (headers : List String) (dataRows : List (List String)) : Nat :=
  if dataRows.isEmpty then headers.length
  else (headers.length :: dataRows.map List.length).foldl Nat.max 0

/-- `headers = table.cells[header_row_idx] if header_row_idx < len(...) else []`
(the guard is redundant for non-empty `cells`, which is the only calling
context; `getD` returns `[]` outside bounds exactly like the source). -/
def normHeaders (cells : List (List String)) : List String :=
  cells.getD (headerRowIdx cells) []

/-- `data_rows = cells[header_row_idx + 1:]`, then
`[row for row in data_rows if any(cell.strip() for cell in row)]`. -/
def normDataRows (cells : List (List String)) : List (List String) :=
  (cells.drop (headerRowIdx cells + 1)).filter rowHasContent

/-- The `max_cols` of `normalize_structure`. -/
def normMaxCols (cells : List (List String)) : Nat :=
  maxColsOf (normHeaders cells) (normDataRows cells)

/-- `MarkerTableExtractor.normalize_structure`. -/
def normalize_structure (table : MarkerTable) : MarkerTable :=
  if table.cells.isEmpty then table
  else
    { cells :=
        (if (normHeaders table.cells).isEmpty then []
         else [padTo (normMaxCols table.cells) (normHeaders table.cells)])
          ++ (normDataRows table.cells).map (padTo (normMaxCols table.cells))
      headers :=
        if (normHeaders table.cells).isEmpty then normHeaders table.cells
        else padTo (normMaxCols table.cells) (normHeaders table.cells)
      page_number := table.page_number
      bboxes := table.bboxes }

/-! ### PyMuPDF extractor: confidence and validation
(from parser_v2/pymupdf_extractor.py) -/

/-- `MarkdownTable` dataclass from parser_v2/models.py. -/
structure MarkdownTable where
  markdown_text : String
  estimated_rows : Int
  estimated_cols : Int
  confidence : ℚ
  page_number : Int
deriving DecidableEq, Repr

/-- Validation error messages produced by `validate_extraction`
(structured stand-ins for the formatted strings of the source). -/
inductive VErr where
  | tooFewCols (cols min_cols : Int)
  | tooFewRows (rows min_rows : Int)
  | lowConfidence (confidence min_confidence : ℚ)
  | malformed
deriving DecidableEq, Repr

/-- Validation warnings produced by `validate_extraction`. -/
inductive VWarn where
  | highEmptyRatio (ratio : ℚ)
deriving DecidableEq, Repr

/-- `ValidationResult` dataclass from parser_v2/models.py. -/
structure ValidationResult where
  passed : Bool
  errors : List VErr
  warnings : List VWarn
  confidence : ℚ
deriving DecidableEq, Repr

/-- `row.count("|") - 1` (an `Int`: the count can be zero). -/
def countPipes (s : String) : Int :=
  ((s.toList.filter (fun c => c = '|')).length : Int)

theorem dropWhile_length_le {α : Type} (p : α → Bool) (l : List α) :
    (l.dropWhile p).length ≤ l.length := by
  induction l with
  | nil => simp
  | cons a l ih =>
    simp only [List.dropWhile]
    cases h : p a <;> simp [h]
    omega

/-- Scan step for `emptyCellCount`; the fuel argument (instantiated with
the list length, which bounds the number of steps, each consuming at
least one character) keeps the recursion structural. -/
def emptyCellGo : Nat → List Char → Nat
  | 0, _ => 0
  | _, [] => 0
  | fuel + 1, c :: rest =>
    if c = '|' then
      match rest.dropWhile pyIsSpace with
      | '|' :: tail => 1 + emptyCellGo fuel tail
      | _ => emptyCellGo fuel rest
    else emptyCellGo fuel rest

/-- Non-overlapping count of matches of the regex `\|\s*\|`, as
`re.findall` computes it (after a match the scan resumes after the
closing pipe). -/
def emptyCellCount (l : List Char) : Nat :=
  emptyCellGo l.length l

/-- `all(count == expected_cols for count in col_counts)`. -/
def consistentCols (rows : List String) (expected_cols : Int) : Bool :=
  (rows.map (fun r => countPipes r - 1)).all (fun c => decide (c = expected_cols))

/-- `sum(len(empty_cell_pattern.findall(row)) for row in rows)`. -/
def emptyCellsTotal (rows : List String) : Nat :=
  (rows.map (fun r => emptyCellCount r.toList)).sum

/-- `empty_cells / max(total_cells, 1)` with `total_cells = len(rows) * expected_cols`. -/
def emptyRatio (rows : List String) (expected_cols : Int) : ℚ :=
  (emptyCellsTotal rows : ℚ)
    / ((pyMaxInt ((rows.length : Int) * expected_cols) 1 : Int) : ℚ)

/-- `PyMuPDFTableExtractor._calculate_confidence`. -/
def calculate_confidence (rows : List String) (expected_cols : Int) : ℚ :=
  if rows.isEmpty then 0
  else
    let c1 : ℚ := 1
    let c2 := if !consistentCols rows expected_cols then c1 * (7/10) else c1
    let c3 := if emptyRatio rows expected_cols > 1/5 then c2 * (6/10) else c2
    let c4 := if rows.length < 2 then c3 * (5/10) else c3
    pyMaxQ 0 (pyMinQ 1 c4)

/-- The confidence `_parse_markdown_table` assigns: `expected_cols` is
the pipe count of the first data row minus one
(`estimated_cols = first_row.count("|") - 1`). -/
def tableConfidence (rows : List String) : ℚ :=
  calculate_confidence rows (countPipes (rows.headD "") - 1)

/-- `PyMuPDFTableExtractor._estimate_empty_ratio` (row filter:
`line.strip().startswith("|")`; `0.0` when no rows). -/
def estimate_empty_ratio (markdown_text : String) : ℚ :=
  let rows := (pySplitNl markdown_text).filter
    (fun line => pyStartsWith (pyStrip line) "|")
  if rows.isEmpty then 0
  else
    (emptyCellsTotal rows : ℚ)
      / ((pyMaxInt ((rows.map (fun r => countPipes r - 1)).sum) 1 : Int) : ℚ)

/-- The error list of `validate_extraction`, written as a standalone
function of the threshold checks only (no dependence on the empty-cell
ratio); compared against the errors the full function produces. -/
def validation_errors (table : MarkdownTable) (min_rows min_cols : Int)
    (min_confidence : ℚ) : List VErr :=
  (if table.estimated_cols < min_cols
    then [VErr.tooFewCols table.estimated_cols min_cols] else [])
  ++ (if table.estimated_rows < min_rows
    then [VErr.tooFewRows table.estimated_rows min_rows] else [])
  ++ (if table.confidence < min_confidence
    then [VErr.lowConfidence table.confidence min_confidence] else [])
  ++ (if !(pyStartsWith (pyStrip table.markdown_text) "|")
    then [VErr.malformed] else [])

/-- `PyMuPDFTableExtractor.validate_extraction`: sequential checks append
to `errors` / `warnings`; `passed = len(errors) == 0`. -/
def validate_extraction (table : MarkdownTable) (min_rows min_cols : Int)
    (min_confidence : ℚ) : ValidationResult :=
  let errors :=
    (if table.estimated_cols < min_cols
      then [VErr.tooFewCols table.estimated_cols min_cols] else [])
    ++ (if table.estimated_rows < min_rows
      then [VErr.tooFewRows table.estimated_rows min_rows] else [])
    ++ (if table.confidence < min_confidence
      then [VErr.lowConfidence table.confidence min_confidence] else [])
    ++ (if !(pyStartsWith (pyStrip table.markdown_text) "|")
      then [VErr.malformed] else [])
  let warnings :=
    if estimate_empty_ratio table.markdown_text > 1/5
      then [VWarn.highEmptyRatio (estimate_empty_ratio table.markdown_text)]
      else []
  { passed := errors.isEmpty
    errors := errors
    warnings := warnings
    confidence := table.confidence }

/-! ### Table Cleaner (`NECBPDFParser._clean_table_structure`
from necb_pdf_parser.py).  The pandas DataFrame is modelled as a list
of rows of strings (the source applies `df.astype(str)` first); pandas
guarantees a non-empty frame has at least one column, so the empty-row
case of `isDataRow` is unreachable there. -/

/-- The exact assembly label vocabulary. -/
def assembly_names : List String :=
  ["walls", "roofs", "floors", "windows", "doors", "skylights"]

/-- `cell.replace('.','').replace(',','').replace('≥','').replace('≤','').replace(' ','')`
— sequential removals of distinct single characters, i.e. a filter. -/
def stripSeparators (cell : String) : String :=
  (cell.toList.filter
    (fun c => !(c = '.' || c = ',' || c = '≥' || c = '≤' || c = ' '))).asString

/-- Python `str.isdigit()` (ASCII digits; nonempty and all digits). -/
def pyIsDigitString (s : String) : Bool :=
  !s.isEmpty && s.toList.all Char.isDigit

/-- The numeric-token test applied to the remaining cells of a candidate row. -/
def isNumericCell (cell : String) : Bool :=
  pyIsDigitString (stripSeparators cell)

/-- The data-row criterion: first cell (trimmed, lowercased) is a known
assembly label, and some later cell is nonblank and numeric after
separator stripping. -/
def isDataRow (row : List String) : Bool :=
  match row with
  | [] => false
  | first :: rest =>
    assembly_names.contains (pyLower (pyStrip first))
      && rest.any (fun cell => !(pyStrip cell).isEmpty && isNumericCell cell)

/-- `non_empty / len(row)` (pandas rows are never empty; Lean's `/0 = 0`
covers the case Python would raise on). -/
def fillRatio (row : List String) : ℚ :=
  ((row.filter (fun c => !(pyStrip c).isEmpty)).length : ℚ) / (row.length : ℚ)

/-- Keywords identifying a header row. -/
def header_keywords : List String := ["zone", "< ", "> ", "to ", "°", "degree"]

/-- `fill_ratio >= 0.5 and has_header_keywords`. -/
def looksLikeHeader (row : List String) : Bool :=
  decide ((1 : ℚ)/2 ≤ fillRatio row)
    && header_keywords.any
      (fun kw => containsSub (pyLower (String.intercalate " " row)).toList kw.toList)

/-- The data-row scan of `_clean_table_structure`: the enumerated rows
whose content qualifies (`data_indices` paired with the raw rows). -/
def cleanDataIdx (grid : List (List String)) : List (Nat × List String) :=
  grid.enum.filter (fun p => isDataRow p.2)

/-- `data_rows`: the qualifying rows, each cell stripped. -/
def cleanDataRows (grid : List (List String)) : List (List String) :=
  (cleanDataIdx grid).map (fun p => p.2.map pyStrip)

/-- The backward header search of `_clean_table_structure`:
`range(max(0, first_data_idx - 10), first_data_idx)`, keeping the last
index whose row has fill ratio ≥ 0.5 and header keywords; fallbacks are
the row just before the data, then generic column labels sized by the
first data row. -/
def cleanHeaders (grid : List (List String)) (first_data_idx : Nat)
    (firstDataRow : List String) : List String :=
  let lo := first_data_idx - 10
  let searchIdxs := List.range' lo (first_data_idx - lo)
  match (searchIdxs.filter (fun i => looksLikeHeader (grid.getD i []))).getLast? with
  | some hi => (grid.getD hi []).map pyStrip
  | none =>
    if first_data_idx > 0 then (grid.getD (first_data_idx - 1) []).map pyStrip
    else (List.range firstDataRow.length).map (fun i => "Column " ++ toString i)

/-- `NECBPDFParser._clean_table_structure`. -/
def clean_table_structure (grid : List (List String)) :
    List String × List (List String) :=
  if grid.isEmpty then ([], [])
  else
    match cleanDataIdx grid with
    | [] =>
      match grid with
      | [] => ([], [])
      | h :: rest => (h.map pyStrip, rest.map (fun r => r.map pyStrip))
    | p :: _ =>
      (cleanHeaders grid p.1 ((cleanDataRows grid).headD []), cleanDataRows grid)

/-! ### Schema registry (from parser_v2/schemas.py) -/

/-- Scan step for `pyReplace` (fuel = input length bounds the number of
steps; a replacement consumes `pat.length ≥ 1` characters, a miss one). -/
def replaceAllGo (pat repl : List Char) : Nat → List Char → List Char
  | 0, l => l
  | fuel + 1, l =>
    match l with
    | [] => []
    | c :: rest =>
      if !pat.isEmpty && pat.isPrefixOf (c :: rest) then
        repl ++ replaceAllGo pat repl fuel ((c :: rest).drop pat.length)
      else c :: replaceAllGo pat repl fuel rest

/-- Python `s.replace(pat, repl)`: replace every non-overlapping
occurrence, scanning left to right (empty pattern unused by the source). -/
def pyReplace (s pat repl : String) : String :=
  (replaceAllGo pat.toList repl.toList s.toList.length s.toList).asString

/-- The normalization in `get_schema_for_table`:
`table_number.replace("Table ", "").replace("A-", "").strip()`. -/
def normalizeTableNumber (table_number : String) : String :=
  pyStrip (pyReplace (pyReplace table_number "Table " "") "A-" "")

/-- The registered target schema classes. -/
inductive SchemaId where
  | EnvelopeTable
  | FDWRTable
  | HVACTable
  | LightingTable
  | PipingInsulationTable
deriving DecidableEq, Repr

/-- `SCHEMA_REGISTRY` from schemas.py. -/
def SCHEMA_REGISTRY : List (String × SchemaId) :=
  [("3.2.2.2", SchemaId.EnvelopeTable),
   ("3.2.2.3", SchemaId.EnvelopeTable),
   ("3.2.1.4", SchemaId.FDWRTable),
   ("4.2.1.3", SchemaId.LightingTable),
   ("5.2.5.3", SchemaId.PipingInsulationTable),
   ("8.4.4.8.A", SchemaId.HVACTable),
   ("8.4.4.8.B", SchemaId.HVACTable)]

/-- `get_schema_for_table`: normalize, then `SCHEMA_REGISTRY.get(normalized)`. -/
def get_schema_for_table (table_number : String) : Option SchemaId :=
  (SCHEMA_REGISTRY.find? (fun p => p.1 == normalizeTableNumber table_number)).map
    Prod.snd

/-! ### Repair Engine (from parser_v2/llm_repair.py).
External dependencies are oracle parameters: `parse` stands for
`json.loads` (error side = `JSONDecodeError` message), `pyd` for
pydantic construction of the target schema (`invalid` = a
`ValidationError` carrying its `e.errors()` list, `exn` = any other
exception), `llmCall` for the outcome of `self.client.generate`
(error side = a raised exception's message).  Error-list entries are
structured stand-ins for the formatted strings of the source. -/

/-- JSON values as `json.loads` produces them. -/
inductive Json where
  | obj (fields : List (String × Json))
  | arr (elems : List Json)
  | str (s : String)
  | num (q : ℚ)
  | bool (b : Bool)
  | null

/-- Python `"error" in data`: key test for dicts, membership for lists,
substring for strings; `none` models the `TypeError` raised otherwise. -/
def pyInError : Json → Option Bool
  | .obj fields => some (fields.any (fun p => p.1 == "error"))
  | .arr es => some (es.any (fun j => match j with
      | .str s => s == "error"
      | _ => false))
  | .str s => some (containsSub s.toList "error".toList)
  | _ => none

/-- Python `len(data)`; `none` models the `TypeError` raised otherwise. -/
def pyLenJson : Json → Option Nat
  | .obj fields => some fields.length
  | .arr es => some es.length
  | .str s => some s.toList.length
  | _ => none

/-- Python `data["error"]`; `none` models the exception raised on
non-dict subscripting. -/
def jsonGetErrorKey : Json → Option Json
  | .obj fields => (fields.find? (fun p => p.1 == "error")).map Prod.snd
  | _ => none

/-- Lowest index at which `pat` occurs in `l` (Python `str.find`). -/
def findSubIdx (l pat : List Char) : Option Nat :=
  ((List.range (l.length + 1)).filter (fun i => pat.isPrefixOf (l.drop i))).head?

/-- Highest index at which `pat` occurs in `l` (Python `str.rfind`). -/
def rfindSubIdx (l pat : List Char) : Option Nat :=
  ((List.range (l.length + 1)).filter (fun i => pat.isPrefixOf (l.drop i))).getLast?

/-- Lowest index `≥ start` holding character `c` (Python `str.find(c, start)`). -/
def findCharFrom (l : List Char) (c : Char) (start : Nat) : Option Nat :=
  ((l.drop start).findIdx? (fun x => x == c)).map (· + start)

/-- `LLMTableRepairer._extract_json_from_markdown`. -/
def extract_json_from_markdown (text : String) : String :=
  let t := stripList text.toList
  let ticks := "```".toList
  if ticks.isPrefixOf t then
    let start :=
      match findCharFrom t '\n' ((findSubIdx t ticks).getD 0) with
      | some i => i
      | none => (findSubIdx t ticks).getD 0 + 3
    let endPos := (rfindSubIdx t ticks).getD t.length
    (stripList ((t.take endPos).drop start)).asString
  else t.asString

/-- Outcome of constructing the target pydantic model from parsed data. -/
inductive PydResult (R : Type) where
  | ok (r : R)
  | invalid (errs : List (String × String))
  | exn (msg : String)

/-- Structured stand-ins for the error strings the Repair Engine appends. -/
inductive RepairErr where
  | noSchema (table_number : String)
  | llmFailed (msg : String)
  | invalidJson (msg : String)
  | llmRejected (value : Option Json)
  | fieldError (loc msg : String)
  | validationFailed (msg : String)

/-- Step 2 of `validate_output`: pydantic validation with its two
`except` arms. -/
def pydanticStep {R : Type} (pyd : Json → PydResult R) (data : Json) :
    Except String (Option R × List RepairErr) :=
  match pyd data with
  | .ok r => .ok (some r, [])
  | .invalid errs => .ok (none, errs.map (fun p => RepairErr.fieldError p.1 p.2))
  | .exn m => .ok (none, [RepairErr.validationFailed m])

/-- `LLMTableRepairer.validate_output`.  The `Except` layer carries
exceptions that escape the method (only `json.JSONDecodeError` is caught
around the parse and rejection check, so the `TypeError`s Python raises
on `"error" in data` / `len(data)` / `data["error"]` for unsuitable
types propagate to the caller). -/
def validate_output {R : Type} (parse : String → Except String Json)
    (pyd : Json → PydResult R) (llm_output : String) :
    Except String (Option R × List RepairErr) :=
  match parse (extract_json_from_markdown llm_output) with
  | .error e => .ok (none, [RepairErr.invalidJson e])
  | .ok data =>
    match pyInError data with
    | none => .error "TypeError: argument is not iterable"
    | some true =>
      match pyLenJson data with
      | none => .error "TypeError: object has no length"
      | some n =>
        if n = 1 then
          match jsonGetErrorKey data with
          | some v => .ok (none, [RepairErr.llmRejected (some v)])
          | none => .error "TypeError: invalid subscript"
        else pydanticStep pyd data
    | some false => pydanticStep pyd data

/-- The schema resolution at the top of `repair_and_normalize`: the
explicit `target_schema` argument, else the registry lookup. -/
def resolveSchema (target_schema : Option SchemaId) (table_number : String) :
    Option SchemaId :=
  match target_schema with
  | some s => some s
  | none => get_schema_for_table table_number

/-- `LLMTableRepairer.repair_and_normalize`.  `llmCall` is the outcome
of the Ollama `generate` call for the prompt built from `raw_table`,
`table_number` and `vintage`; any exception raised inside the `try`
block (the call itself or one escaping `validate_output`) lands in the
generic `except` arm. -/
def repair_and_normalize {R : Type} (parse : String → Except String Json)
    (pyd : SchemaId → Json → PydResult R) (llmCall : Except String String)
    (raw_table table_number vintage : String)
    (target_schema : Option SchemaId) : Option R × List RepairErr :=
  match resolveSchema target_schema table_number with
  | none => (none, [RepairErr.noSchema table_number])
  | some schema =>
    match llmCall with
    | .error e => (none, [RepairErr.llmFailed e])
    | .ok llm_output =>
      match validate_output parse (pyd schema) llm_output with
      | .error e => (none, [RepairErr.llmFailed e])
      | .ok (some d, _) => (some d, [])
      | .ok (none, verrs) => (none, verrs)

/-! ### Metadata extractor (`NECBPDFParser._extract_table_metadata`
from necb_pdf_parser.py).  The table-number regex
`Table\s+([A-Z]?-?\d+(?:\.\d+)*(?:\.[A-Z])?\.(?:\(\d+\))?)` is
implemented concretely, including the backtracking Python's engine
performs on the greedy `(?:\.\d+)*` star and the optionals. -/

/-- `\d+` (greedy): the leading digit run, failing when empty. -/
def matchDigits (l : List Char) : Option (List Char × List Char) :=
  let ds := l.takeWhile Char.isDigit
  if ds.isEmpty then none else some (ds, l.drop ds.length)

/-- The pattern tail `(?:\.[A-Z])?\.(?:\(\d+\))?` with backtracking on
the first optional. -/
def matchTail (l : List Char) : Option (List Char × List Char) :=
  let core : List Char → Option (List Char × List Char) := fun l2 =>
    match l2 with
    | '.' :: rest =>
      match rest with
      | '(' :: r2 =>
        let ds := r2.takeWhile Char.isDigit
        if ds.isEmpty then some (['.'], rest)
        else
          match r2.drop ds.length with
          | ')' :: r3 => some ('.' :: '(' :: (ds ++ [')']), r3)
          | _ => some (['.'], rest)
      | _ => some (['.'], rest)
    | _ => none
  match l with
  | '.' :: u :: rest =>
    if u.isUpper then
      match core rest with
      | some (consumed, r) => some ('.' :: u :: consumed, r)
      | none => core l
    else core l
  | _ => core l

/-- `(?:\.\d+)*` (greedy, with backtracking) followed by `matchTail`;
fuel = input length bounds the chunk count (each chunk consumes at least
two characters). -/
def chunksTailGo : Nat → List Char → Option (List Char × List Char)
  | 0, l => matchTail l
  | fuel + 1, l =>
    match l with
    | '.' :: rest =>
      let ds := rest.takeWhile Char.isDigit
      if ds.isEmpty then matchTail l
      else
        match chunksTailGo fuel (rest.drop ds.length) with
        | some (c, r) => some (('.' :: ds) ++ c, r)
        | none => matchTail l
    | _ => matchTail l

/-- `(?:\.\d+)*` followed by the pattern tail. -/
def chunksTail (l : List Char) : Option (List Char × List Char) :=
  chunksTailGo l.length l

/-- Capture group 1: `[A-Z]?-?\d+(?:\.\d+)*(?:\.[A-Z])?\.(?:\(\d+\))?`,
with the letter/dash options tried in the engine's greedy order. -/
def matchGroup (l : List Char) : Option (List Char × List Char) :=
  let core : List Char → Option (List Char × List Char) := fun l2 =>
    match matchDigits l2 with
    | some (ds, r) =>
      match chunksTail r with
      | some (c, r2) => some (ds ++ c, r2)
      | none => none
    | none => none
  match l with
  | a :: rest =>
    if a.isUpper then
      match rest with
      | '-' :: r2 =>
        match core r2 with
        | some (g, r3) => some (a :: '-' :: g, r3)
        | none => (core rest).map (fun p => (a :: p.1, p.2))
      | _ => (core rest).map (fun p => (a :: p.1, p.2))
    else if a = '-' then
      (core rest).map (fun p => ('-' :: p.1, p.2))
    else core l
  | [] => none

/-- A whole-pattern match anchored at the head of `l`: literal `Table`,
`\s+`, then the group.  Returns the group text and the rest of the input
after the match. -/
def matchTableAt (l : List Char) : Option (List Char × List Char) :=
  if "Table".toList.isPrefixOf l then
    let afterLit := l.drop 5
    let ws := afterLit.takeWhile pyIsSpace
    if ws.isEmpty then none
    else matchGroup (afterLit.drop ws.length)
  else none

/-- `re.finditer` over the table-number pattern: scan left to right,
resume after each match.  Returns (group text, match end position); the
fuel argument (instantiated with the text length) bounds the scan, which
consumes at least one character per step. -/
def finditerGo (fuel : Nat) (l : List Char) (pos : Nat) :
    List (List Char × Nat) :=
  match fuel with
  | 0 => []
  | fuel' + 1 =>
    match l with
    | [] => []
    | c :: rest =>
      match matchTableAt (c :: rest) with
      | some (g, r) =>
        let len := (c :: rest).length - r.length
        (g, pos + len) :: finditerGo fuel' r (pos + len)
      | none => finditerGo fuel' rest (pos + 1)

/-- All matches of the table-number pattern in `page_text`, in document
order, as (group 1, end offset) pairs. -/
def finditerTableNumbers (page_text : String) : List (List Char × Nat) :=
  finditerGo (page_text.toList.length + 1) page_text.toList 0

/-- First offset at which predicate `p` holds of the remaining suffix
(the generic `re.search(...).start()` scaffold for the end markers). -/
def firstMatchPos (p : List Char → Bool) : List Char → Option Nat
  | [] => none
  | c :: rest => if p (c :: rest) then some 0 else (firstMatchPos p rest).map (· + 1)

/-- End marker `\nForming Part`. -/
def isFormingPartAt (l : List Char) : Bool :=
  "\nForming Part".toList.isPrefixOf l

/-- End marker `\nNotes to Table`. -/
def isNotesAt (l : List Char) : Bool :=
  "\nNotes to Table".toList.isPrefixOf l

/-- End marker `\n\d+\.\d+` (next section number). -/
def isSectionNumAt (l : List Char) : Bool :=
  match l with
  | '\n' :: r =>
    let ds := r.takeWhile Char.isDigit
    !ds.isEmpty &&
      (match r.drop ds.length with
       | '.' :: r2 => !(r2.takeWhile Char.isDigit).isEmpty
       | _ => false)
  | _ => false

/-- End marker `\nTable \d+` (next table). -/
def isNextTableAt (l : List Char) : Bool :=
  match l with
  | '\n' :: r =>
    "Table ".toList.isPrefixOf r &&
      (match r.drop 6 with
       | d :: _ => d.isDigit
       | [] => false)
  | _ => false

/-- Step function for `collapseWs` (fuel = input length). -/
def collapseWsGo : Nat → List Char → List Char
  | 0, l => l
  | fuel + 1, l =>
    match l with
    | [] => []
    | c :: rest =>
      if pyIsSpace c then ' ' :: collapseWsGo fuel (rest.dropWhile pyIsSpace)
      else c :: collapseWsGo fuel rest

/-- `re.sub(r'\s+', ' ', title)`: collapse whitespace runs to single spaces. -/
def collapseWs (l : List Char) : List Char :=
  collapseWsGo l.length l

/-- `NECBPDFParser._extract_table_metadata`. -/
def extract_table_metadata (page_text : String) (page_number : Int)
    (table_idx : Nat) : String × String :=
  let default_number := "Table-" ++ toString page_number ++ "-" ++ toString table_idx
  let default_title := "Untitled Table"
  let chars := page_text.toList
  let ms := finditerTableNumbers page_text
  if h : table_idx < ms.length then
    let m := ms.get ⟨table_idx, h⟩
    let table_number := "Table " ++ m.1.asString
    let start_pos := m.2
    let tailText := chars.drop start_pos
    let markerStarts :=
      [firstMatchPos isFormingPartAt tailText,
       firstMatchPos isNotesAt tailText,
       firstMatchPos isSectionNumAt tailText,
       firstMatchPos isNextTableAt tailText]
    let end_pos := markerStarts.foldl
      (fun acc mm => match mm with
        | some i => pyMinNat acc (start_pos + i)
        | none => acc)
      chars.length
    let title_text := stripList ((chars.take end_pos).drop start_pos)
    let title_lines :=
      ((pySplitNl title_text.asString).take 3).map pyStrip
        |>.filter (fun s => !s.isEmpty)
    let title0 :=
      if title_lines.isEmpty then default_title
      else String.intercalate " " title_lines
    let title1 := (collapseWs title0.toList).asString
    let title :=
      if 200 < title1.toList.length
        then (title1.toList.take 197).asString ++ "..."
        else title1
    (table_number, title)
  else (default_number, default_title)

/-! ## Supporting lemmas: `normalize_structure` -/

theorem padTo_length (n : Nat) (row : List String) :
    (padTo n row).length = Nat.max row.length n := by
  simp [padTo]
  rcases Nat.le_total row.length n with h | h
  · rw [show Nat.max row.length n = n from Nat.max_eq_right h]
    omega
  · rw [show Nat.max row.length n = row.length from Nat.max_eq_left h]
    omega

theorem padTo_eq_self (n : Nat) (row : List String) (h : n ≤ row.length) :
    padTo n row = row := by
  simp [padTo, Nat.sub_eq_zero_of_le h]

theorem le_foldl_max (a : Nat) (l : List Nat) : a ≤ l.foldl Nat.max a := by
  induction l generalizing a with
  | nil => simp
  | cons x xs ih =>
    rw [List.foldl_cons]
    exact le_trans (Nat.le_max_left a x) (ih _)

theorem mem_le_foldl_max (l : List Nat) (a : Nat) :
    ∀ x ∈ l, x ≤ l.foldl Nat.max a := by
  induction l generalizing a with
  | nil => simp
  | cons y ys ih =>
    intro x hx
    rw [List.foldl_cons]
    rcases List.mem_cons.1 hx with rfl | hx
    · exact le_trans (Nat.le_max_right a x) (le_foldl_max _ _)
    · exact ih _ x hx

theorem foldl_max_const (m : Nat) :
    ∀ l : List Nat, (∀ x ∈ l, x = m) → l.foldl Nat.max m = m
  | [], _ => rfl
  | x :: xs, h => by
    rw [List.foldl_cons, h x (List.mem_cons_self x xs),
      show Nat.max m m = m from Nat.max_self m]
    exact foldl_max_const m xs (fun y hy => h y (List.mem_cons_of_mem _ hy))

theorem headers_length_le_maxCols (headers : List String)
    (dataRows : List (List String)) :
    headers.length ≤ maxColsOf headers dataRows := by
  unfold maxColsOf
  split
  · exact le_refl _
  · exact mem_le_foldl_max _ 0 _ (List.mem_cons_self _ _)

theorem row_length_le_maxCols (headers : List String)
    (dataRows : List (List String)) (r : List String) (hr : r ∈ dataRows) :
    r.length ≤ maxColsOf headers dataRows := by
  unfold maxColsOf
  split
  · rename_i hempty
    simp only [List.isEmpty_iff] at hempty
    rw [hempty] at hr
    cases hr
  · exact mem_le_foldl_max _ 0 _
      (List.mem_cons_of_mem _ (List.mem_map_of_mem _ hr))

theorem maxColsOf_eq (H : List String) (R : List (List String))
    (hlen : ∀ r ∈ R, r.length = H.length) : maxColsOf H R = H.length := by
  unfold maxColsOf
  split
  · rfl
  · rw [List.foldl_cons, show Nat.max 0 H.length = H.length from Nat.zero_max _]
    refine foldl_max_const _ _ ?_
    intro x hx
    rcases List.mem_map.1 hx with ⟨r, hr, rfl⟩
    exact hlen r hr

theorem any_replicate_blank (k : Nat) :
    (List.replicate k ("" : String)).any (fun c => !(pyStrip c).isEmpty) = false := by
  induction k with
  | zero => rfl
  | succ n ih =>
    rw [List.replicate_succ, List.any_cons, ih]
    decide

theorem rowHasContent_padTo (n : Nat) (r : List String) :
    rowHasContent (padTo n r) = rowHasContent r := by
  unfold rowHasContent padTo
  rw [List.any_append, any_replicate_blank, Bool.or_false]

theorem normHeaders_content_of_findIdx {cells : List (List String)} {i : Nat}
    (h : cells.findIdx? rowHasContent = some i) :
    rowHasContent (normHeaders cells) = true := by
  rcases List.findIdx?_eq_some_iff_getElem.1 h with ⟨hlt, hp, -⟩
  unfold normHeaders headerRowIdx
  rw [h]
  simpa [List.getD_eq_getElem?_getD, List.getElem?_eq_getElem hlt] using hp

theorem findIdx?_none_of_not_content {cells : List (List String)}
    (hh : rowHasContent (normHeaders cells) = false) :
    cells.findIdx? rowHasContent = none := by
  cases h : cells.findIdx? rowHasContent with
  | none => rfl
  | some i =>
    rw [normHeaders_content_of_findIdx h] at hh
    cases hh

theorem normDataRows_nil_of_none {cells : List (List String)}
    (h : cells.findIdx? rowHasContent = none) :
    normDataRows cells = [] := by
  unfold normDataRows
  rw [List.filter_eq_nil_iff]
  intro r hr
  have := List.findIdx?_eq_none_iff.1 h r (List.mem_of_mem_drop hr)
  simp [this]

theorem normDataRows_nil_of_headers_empty {cells : List (List String)}
    (hh : (normHeaders cells).isEmpty = true) : normDataRows cells = [] := by
  apply normDataRows_nil_of_none
  apply findIdx?_none_of_not_content
  have h0 : normHeaders cells = [] := by simpa using hh
  rw [h0]
  rfl

theorem normalize_eq_of_empty (u : MarkerTable) (hc : u.cells.isEmpty = true) :
    normalize_structure u = u := by
  unfold normalize_structure
  simp [hc]

theorem normalize_eq_of_headers_empty (t : MarkerTable)
    (hc : t.cells.isEmpty = false) (hh : (normHeaders t.cells).isEmpty = true) :
    normalize_structure t = ⟨[], [], t.page_number, t.bboxes⟩ := by
  have hdr := normDataRows_nil_of_headers_empty hh
  have hH : normHeaders t.cells = [] := by simpa using hh
  unfold normalize_structure
  simp [hc, hh, hdr, hH]

theorem normalize_eq_of_nonempty (t : MarkerTable)
    (hc : t.cells.isEmpty = false) (hh : (normHeaders t.cells).isEmpty = false) :
    normalize_structure t =
      ⟨padTo (normMaxCols t.cells) (normHeaders t.cells)
          :: (normDataRows t.cells).map (padTo (normMaxCols t.cells)),
        padTo (normMaxCols t.cells) (normHeaders t.cells),
        t.page_number, t.bboxes⟩ := by
  unfold normalize_structure
  simp [hc, hh]

theorem normalize_row_lengths (t : MarkerTable) :
    ∀ row ∈ (normalize_structure t).cells,
      row.length = (normalize_structure t).headers.length := by
  cases hc : t.cells.isEmpty
  · cases hh : (normHeaders t.cells).isEmpty
    · rw [normalize_eq_of_nonempty t hc hh]
      intro row hrow
      have hHlen : (padTo (normMaxCols t.cells) (normHeaders t.cells)).length
          = normMaxCols t.cells := by
        rw [padTo_length]
        exact Nat.max_eq_right (headers_length_le_maxCols _ _)
      rcases List.mem_cons.1 hrow with rfl | hmem
      · rfl
      · rcases List.mem_map.1 hmem with ⟨r, hr, rfl⟩
        rw [hHlen, padTo_length]
        exact Nat.max_eq_right (row_length_le_maxCols _ _ r hr)
    · rw [normalize_eq_of_headers_empty t hc hh]
      intro row hrow
      cases hrow
  · rw [normalize_eq_of_empty t hc]
    have h0 : t.cells = [] := by simpa using hc
    rw [h0]
    intro row hrow
    cases hrow

theorem map_eq_self_of {α : Type} (l : List α) (f : α → α)
    (h : ∀ x ∈ l, f x = x) : l.map f = l := by
  induction l with
  | nil => rfl
  | cons x xs ih =>
    rw [List.map_cons, h x (by simp), ih (fun y hy => h y (by simp [hy]))]

theorem normalize_fix (H : List String) (R : List (List String)) (p : Int)
    (b : Option (List (List ℚ))) (hH : H.isEmpty = false)
    (hidx : headerRowIdx (H :: R) = 0)
    (hR : ∀ r ∈ R, rowHasContent r = true)
    (hlen : ∀ r ∈ R, r.length = H.length) :
    normalize_structure ⟨H :: R, H, p, b⟩ = ⟨H :: R, H, p, b⟩ := by
  have hnh : normHeaders (H :: R) = H := by
    unfold normHeaders
    rw [hidx]
    rfl
  have hnd : normDataRows (H :: R) = R := by
    unfold normDataRows
    rw [hidx]
    exact List.filter_eq_self.2 hR
  have hmc : normMaxCols (H :: R) = H.length := by
    unfold normMaxCols
    rw [hnh, hnd]
    exact maxColsOf_eq H R hlen
  rw [normalize_eq_of_nonempty ⟨H :: R, H, p, b⟩ rfl (by rw [hnh]; exact hH)]
  rw [hnh, hnd, hmc]
  rw [padTo_eq_self H.length H (le_refl _)]
  rw [map_eq_self_of R _ (fun r hr => padTo_eq_self _ _ (le_of_eq (hlen r hr).symm))]

/-! ## Claim theorems C2 and C10 -/

/-- Claim C2: for every `MarkerTable` input (leading empty rows, ragged
rows, rows longer than the header, all-empty rows included), the table
returned by `normalize_structure` has a rectangular cell grid: every row
of the returned `cells` has the same length as the returned header row. -/
theorem normalize_structure_rectangular (t : MarkerTable) :
    ((normalize_structure t).cells.all
      (fun row => row.length == (normalize_structure t).headers.length)) = true := by
  rw [List.all_eq_true]
  intro row hrow
  simpa using normalize_row_lengths t row hrow

/-- Claim C10: `normalize_structure` is idempotent — normalizing an
already-normalized table changes none of its fields. -/
theorem normalize_structure_idempotent (t : MarkerTable) :
    normalize_structure (normalize_structure t) = normalize_structure t := by
  cases hc : t.cells.isEmpty
  · cases hh : (normHeaders t.cells).isEmpty
    · rw [normalize_eq_of_nonempty t hc hh]
      have hHlen : (padTo (normMaxCols t.cells) (normHeaders t.cells)).length
          = normMaxCols t.cells := by
        rw [padTo_length]
        exact Nat.max_eq_right (headers_length_le_maxCols _ _)
      apply normalize_fix
      · have hHne : normHeaders t.cells ≠ [] := by simpa using hh
        have h1 : 0 < (normHeaders t.cells).length := List.length_pos.2 hHne
        have h2 : 0 < (padTo (normMaxCols t.cells) (normHeaders t.cells)).length := by
          rw [padTo_length]
          exact lt_of_lt_of_le h1 (Nat.le_max_left _ _)
        cases hpe : padTo (normMaxCols t.cells) (normHeaders t.cells) with
        | nil =>
          rw [hpe] at h2
          exact absurd h2 (by simp)
        | cons a l => rfl
      · unfold headerRowIdx
        by_cases ha : rowHasContent (normHeaders t.cells)
        · simp [List.findIdx?_cons, rowHasContent_padTo, ha]
        · simp only [Bool.not_eq_true] at ha
          have hnone := findIdx?_none_of_not_content ha
          have hDnil : normDataRows t.cells = [] := normDataRows_nil_of_none hnone
          simp [hDnil, List.findIdx?_cons, rowHasContent_padTo, ha]
      · intro r hr
        rcases List.mem_map.1 hr with ⟨r0, hr0, rfl⟩
        rw [rowHasContent_padTo]
        have := hr0
        unfold normDataRows at this
        exact (List.mem_filter.1 this).2
      · intro r hr
        rcases List.mem_map.1 hr with ⟨r0, hr0, rfl⟩
        rw [padTo_length, hHlen]
        exact Nat.max_eq_right (row_length_le_maxCols _ _ r0 hr0)
    · rw [normalize_eq_of_headers_empty t hc hh]
      exact normalize_eq_of_empty _ rfl
  · rw [normalize_eq_of_empty t hc]
    exact normalize_eq_of_empty t hc

/-! ## Claim theorems C3, C5, C6 (validator and confidence) -/

/-- Claim C3 counterexample: a table meeting all three thresholds
(rows ≥ min_rows, cols ≥ min_cols, confidence ≥ min_confidence) can
still fail validation, because `validate_extraction` also rejects a
block whose stripped text does not start with `|`. -/
theorem validate_extraction_thresholds_insufficient :
    ((1 : Int) ≤ 5 ∧ (1 : Int) ≤ 5 ∧ (8/10 : ℚ) ≤ 1)
    ∧ (validate_extraction ⟨"x", 5, 5, 1, 0⟩ 1 1 (8/10)).passed = false
    ∧ (validate_extraction ⟨"x", 5, 5, 1, 0⟩ 1 1 (8/10)).errors ≠ [] := by
  decide

/-- Claim C3 (amended): when additionally the markdown block, stripped,
starts with the pipe delimiter, the three threshold conditions guarantee
`passed = true` with an empty error list. -/
theorem validate_extraction_passes (table : MarkdownTable)
    (min_rows min_cols : Int) (min_confidence : ℚ)
    (hc : min_cols ≤ table.estimated_cols)
    (hr : min_rows ≤ table.estimated_rows)
    (hf : min_confidence ≤ table.confidence)
    (hp : pyStartsWith (pyStrip table.markdown_text) "|" = true) :
    (validate_extraction table min_rows min_cols min_confidence).passed = true
    ∧ (validate_extraction table min_rows min_cols min_confidence).errors = [] := by
  have h1 : ¬(table.estimated_cols < min_cols) := not_lt.2 hc
  have h2 : ¬(table.estimated_rows < min_rows) := not_lt.2 hr
  have h3 : ¬(table.confidence < min_confidence) := not_lt.2 hf
  unfold validate_extraction
  simp [h1, h2, h3, hp]

/-- Witness for C3's amended theorem: the spec's own example table
(4 columns, 1 data row, confidence 0.95 against thresholds 1/4/0.8). -/
theorem validate_extraction_passes_witness :
    ((4 : Int) ≤ 4 ∧ (1 : Int) ≤ 1 ∧ (8/10 : ℚ) ≤ 95/100
      ∧ pyStartsWith (pyStrip
          "| Assembly | Zone4 | Zone5 | Zone6 |\n| Walls | 0.315 | 0.278 | 0.247 |")
          "|" = true)
    ∧ ((validate_extraction
        ⟨"| Assembly | Zone4 | Zone5 | Zone6 |\n| Walls | 0.315 | 0.278 | 0.247 |",
          1, 4, 95/100, 72⟩ 1 4 (8/10)).passed = true
      ∧ (validate_extraction
        ⟨"| Assembly | Zone4 | Zone5 | Zone6 |\n| Walls | 0.315 | 0.278 | 0.247 |",
          1, 4, 95/100, 72⟩ 1 4 (8/10)).errors = []) :=
  ⟨by decide,
    validate_extraction_passes _ 1 4 (8/10)
      (by decide) (by decide) (by decide) (by decide)⟩

/-- Claim C5: `passed` is true exactly when the error list is empty; the
error list coincides with the threshold/malformed checks alone (written
out in `validation_errors`, which never consults the empty-cell ratio);
and the empty-cell ratio feeds only the warning list. -/
theorem validate_extraction_passed_iff (table : MarkdownTable)
    (min_rows min_cols : Int) (min_confidence : ℚ) :
    ((validate_extraction table min_rows min_cols min_confidence).passed = true
      ↔ (validate_extraction table min_rows min_cols min_confidence).errors = [])
    ∧ (validate_extraction table min_rows min_cols min_confidence).errors
        = validation_errors table min_rows min_cols min_confidence
    ∧ (validate_extraction table min_rows min_cols min_confidence).warnings
        = (if estimate_empty_ratio table.markdown_text > 1/5
            then [VWarn.highEmptyRatio (estimate_empty_ratio table.markdown_text)]
            else []) := by
  refine ⟨?_, rfl, rfl⟩
  exact List.isEmpty_iff

/-- Claim C6: the Fast Extractor's confidence is 0 for an empty row
list, and otherwise is exactly the product of the three structural
penalties — ×0.7 iff some row's column count differs from the first
row's, ×0.6 iff the empty-cell ratio exceeds 20%, ×0.5 iff there are
fewer than two rows — and always lies in [0, 1]. -/
theorem fast_extractor_confidence_spec (rows : List String) :
    (rows = [] → tableConfidence rows = 0)
    ∧ (rows ≠ [] →
        tableConfidence rows =
          (if consistentCols rows (countPipes (rows.headD "") - 1)
            then (1 : ℚ) else 7/10)
          * (if emptyRatio rows (countPipes (rows.headD "") - 1) > 1/5
            then (6 : ℚ)/10 else 1)
          * (if rows.length < 2 then (5 : ℚ)/10 else 1))
    ∧ 0 ≤ tableConfidence rows
    ∧ tableConfidence rows ≤ 1 := by
  refine ⟨?_, ?_, ?_, ?_⟩
  · intro h
    subst h
    rfl
  · intro hne
    have he : rows.isEmpty = false := by
      cases rows with
      | nil => exact absurd rfl hne
      | cons a l => rfl
    unfold tableConfidence calculate_confidence
    rw [if_neg (by simp [he])]
    split_ifs <;> first | decide | simp_all
  · unfold tableConfidence calculate_confidence pyMaxQ pyMinQ
    split_ifs <;> first | assumption | norm_num | linarith
  · unfold tableConfidence calculate_confidence pyMaxQ pyMinQ
    split_ifs <;> first | assumption | norm_num | linarith

/-- Witness for C6: a two-row table with inconsistent column counts gets
confidence 1 × 0.7. -/
theorem fast_extractor_confidence_witness :
    (["|a|b|", "|c|"] : List String) ≠ []
    ∧ tableConfidence ["|a|b|", "|c|"] = 7/10 :=
  ⟨by decide, by
    rw [(fast_extractor_confidence_spec ["|a|b|", "|c|"]).2.1 (by decide)]
    decide⟩

/-! ## Claim theorems C4 (table cleaner) and C7 (schema registry) -/

theorem enumFrom_filter_map {a b : Type} (q : a → Bool) (f : a → b) :
    ∀ (l : List a) (n : Nat),
      ((List.enumFrom n l).filter (fun p => q p.2)).map (fun p => f p.2)
        = (l.filter q).map f
  | [], _ => rfl
  | x :: xs, n => by
    simp only [List.enumFrom, List.filter_cons]
    cases hq : q x <;>
      simp [hq, enumFrom_filter_map q f xs (n + 1)]

/-- Claim C4 counterexample: on a grid in which no row matches the
assembly vocabulary, `_clean_table_structure` falls back to returning
every row after the first as data rows, so a row failing the data-row
criterion appears among the returned data rows. -/
theorem clean_table_structure_fallback_includes_nonmatching :
    (clean_table_structure [["x", "1"], ["y", "2"]]).2 = [["y", "2"]]
    ∧ isDataRow ["y", "2"] = false := by
  decide

/-- Claim C4 (amended): provided at least one grid row qualifies, the
returned data rows are exactly the whitespace-trimmed qualifying rows —
a row is included iff its first cell, trimmed and lowercased, is a known
assembly label and some later cell is nonblank and numeric after
separator stripping (`isDataRow`). -/
theorem clean_table_structure_data_rows (grid : List (List String))
    (h : grid.any isDataRow = true) :
    (clean_table_structure grid).2
      = (grid.filter isDataRow).map (fun r => r.map pyStrip) := by
  have hne : grid ≠ [] := by
    rintro rfl
    simp at h
  have hie : grid.isEmpty = false := by
    cases grid with
    | nil => exact absurd rfl hne
    | cons a l => rfl
  have hrows : cleanDataRows grid = (grid.filter isDataRow).map (fun r => r.map pyStrip) :=
    enumFrom_filter_map isDataRow (fun r => r.map pyStrip) grid 0
  have hnil : cleanDataIdx grid ≠ [] := by
    intro h0
    have h1 : cleanDataRows grid = [] := by
      unfold cleanDataRows
      rw [h0]
      rfl
    rw [hrows] at h1
    rcases List.any_eq_true.1 h with ⟨x, hx, hq⟩
    have h2 : (grid.filter isDataRow) = [] := by
      cases hf : grid.filter isDataRow with
      | nil => rfl
      | cons y ys =>
        rw [hf] at h1
        cases h1
    have := (List.filter_eq_nil_iff.1 h2) x hx
    exact this hq
  unfold clean_table_structure
  rw [if_neg (by simp [hie])]
  cases hd : cleanDataIdx grid with
  | nil => exact absurd hd hnil
  | cons p rest =>
    simpa using hrows

/-- Witness for C4's amended theorem: a grid with one qualifying
assembly row between a caption row and a footnote row. -/
theorem clean_table_structure_data_rows_witness :
    ([["Title", "x"], [" Walls ", "0.315"], ["note", ""]] : List (List String)).any
      isDataRow = true
    ∧ (clean_table_structure [["Title", "x"], [" Walls ", "0.315"], ["note", ""]]).2
        = [["Walls", "0.315"]] :=
  ⟨by decide, by
    rw [clean_table_structure_data_rows _ (by decide)]
    decide⟩

/-- Claim C7: for every registered table number the lookup returns the
same (non-none) schema for the bare number, for the "Table "-prefixed
spelling, and for the appendix "A-" spelling; and when the normalized
form of the input is not a registry key, the lookup returns `none`
rather than raising. -/
theorem schema_registry_lookup (entry : String × SchemaId) (s : String) :
    (entry ∈ SCHEMA_REGISTRY →
      get_schema_for_table entry.1 = some entry.2
      ∧ get_schema_for_table ("Table " ++ entry.1) = some entry.2
      ∧ get_schema_for_table ("A-" ++ entry.1) = some entry.2)
    ∧ ((∀ p ∈ SCHEMA_REGISTRY, p.1 ≠ normalizeTableNumber s) →
        get_schema_for_table s = none) := by
  constructor
  · intro hmem
    simp only [SCHEMA_REGISTRY, List.mem_cons, List.not_mem_nil, or_false] at hmem
    rcases hmem with rfl | rfl | rfl | rfl | rfl | rfl | rfl <;> exact ⟨by decide, by decide, by decide⟩
  · intro hall
    unfold get_schema_for_table
    rw [List.find?_eq_none.2 ?_]
    · rfl
    · intro p hp
      simpa using hall p hp

/-- Witness for C7: a registered number resolves identically under the
"Table " spelling, and an unregistered number yields `none`. -/
theorem schema_registry_lookup_witness :
    get_schema_for_table "Table 3.2.2.2" = some SchemaId.EnvelopeTable
    ∧ get_schema_for_table "9.9.9.9" = none :=
  ⟨((schema_registry_lookup ("3.2.2.2", SchemaId.EnvelopeTable) "x").1 (by decide)).2.1,
   (schema_registry_lookup ("3.2.2.2", SchemaId.EnvelopeTable) "9.9.9.9").2 (by decide)⟩

/-! ## Claim theorems C1, C8 (repair engine) and C9 (metadata) -/

theorem pydanticStep_none_errors {R : Type} (pyd : Json → PydResult R)
    (data : Json) (hpyd : pyd data ≠ PydResult.invalid [])
    (errs : List RepairErr)
    (h : pydanticStep pyd data = .ok (none, errs)) : errs ≠ [] := by
  unfold pydanticStep at h
  cases hp : pyd data with
  | ok r =>
    rw [hp] at h
    simp at h
  | invalid es =>
    rw [hp] at h
    simp only [Except.ok.injEq, Prod.mk.injEq, true_and] at h
    cases es with
    | nil => exact absurd hp hpyd
    | cons e es' =>
      rw [← h]
      simp
  | exn m =>
    rw [hp] at h
    simp only [Except.ok.injEq, Prod.mk.injEq, true_and] at h
    rw [← h]
    simp

theorem validate_output_none_errors {R : Type}
    (parse : String → Except String Json) (pyd : Json → PydResult R)
    (s : String) (errs : List RepairErr)
    (hpyd : ∀ j, pyd j ≠ PydResult.invalid [])
    (h : validate_output parse pyd s = .ok (none, errs)) : errs ≠ [] := by
  unfold validate_output at h
  split at h
  · simp only [Except.ok.injEq, Prod.mk.injEq, true_and] at h
    rw [← h]
    simp
  · split at h
    · exact Except.noConfusion h
    · split at h
      · exact Except.noConfusion h
      · split at h
        · split at h
          · simp only [Except.ok.injEq, Prod.mk.injEq, true_and] at h
            rw [← h]
            simp
          · exact Except.noConfusion h
        · exact pydanticStep_none_errors pyd _ (hpyd _) errs h
    · exact pydanticStep_none_errors pyd _ (hpyd _) errs h

/-- Claim C1: on every path — missing schema, model-call failure, JSON
parse failure, explicit model rejection, schema validation failure, and
success — `repair_and_normalize` returns either a record with an empty
error list or null data with a non-empty error list, never both and
never neither.  The hypothesis reflects pydantic's invariant that a
`ValidationError` always carries at least one error entry. -/
theorem repair_and_normalize_dichotomy {R : Type}
    (parse : String → Except String Json) (pyd : SchemaId → Json → PydResult R)
    (llmCall : Except String String) (raw_table table_number vintage : String)
    (target_schema : Option SchemaId)
    (hpyd : ∀ sc j, pyd sc j ≠ PydResult.invalid []) :
    (∃ d, repair_and_normalize parse pyd llmCall raw_table table_number vintage
        target_schema = (some d, []))
    ∨ ((repair_and_normalize parse pyd llmCall raw_table table_number vintage
        target_schema).1 = none
      ∧ (repair_and_normalize parse pyd llmCall raw_table table_number vintage
        target_schema).2 ≠ []) := by
  unfold repair_and_normalize
  split
  · right
    simp
  · split
    · right
      simp
    · split
      · right
        simp
      · rename_i d snd heq
        left
        exact ⟨d, rfl⟩
      · rename_i verrs heq
        right
        exact ⟨rfl, validate_output_none_errors _ _ _ verrs (hpyd _) heq⟩

/-- Witness for C1 at a concrete instantiation (JSON parse failure path). -/
theorem repair_and_normalize_dichotomy_witness :
    (∃ d, repair_and_normalize (fun _ => Except.error "bad json")
        (fun _ _ => PydResult.ok ()) (Except.ok "output") "raw" "3.2.2.2" "2020"
        (some SchemaId.EnvelopeTable) = (some d, []))
    ∨ ((repair_and_normalize (fun _ => Except.error "bad json")
        (fun _ _ => PydResult.ok ()) (Except.ok "output") "raw" "3.2.2.2" "2020"
        (some SchemaId.EnvelopeTable)).1 = none
      ∧ (repair_and_normalize (fun _ => Except.error "bad json")
        (fun _ _ => PydResult.ok ()) (Except.ok "output") "raw" "3.2.2.2" "2020"
        (some SchemaId.EnvelopeTable)).2 ≠ []) :=
  repair_and_normalize_dichotomy _ _ _ _ _ _ _
    (fun _ _ h => PydResult.noConfusion h)

/-- Claim C8: a response that (after stripping an optional code fence)
parses as a JSON object whose only key is "error" makes
`validate_output` return null data with the single rejection error, for
every pydantic oracle — i.e. without attempting schema validation; an
object containing "error" along with other keys instead proceeds to the
pydantic step. -/
theorem validate_output_rejection {R : Type}
    (parse : String → Except String Json) (pyd : Json → PydResult R)
    (s : String) (v : Json) (fields : List (String × Json)) :
    (parse (extract_json_from_markdown s) = .ok (Json.obj [("error", v)]) →
      validate_output parse pyd s
        = .ok (none, [RepairErr.llmRejected (some v)]))
    ∧ (parse (extract_json_from_markdown s) = .ok (Json.obj fields) →
      fields.any (fun p => p.1 == "error") = true → fields.length ≠ 1 →
      validate_output parse pyd s = pydanticStep pyd (Json.obj fields)) := by
  constructor
  · intro h
    unfold validate_output
    rw [h]
    simp [pyInError, pyLenJson, jsonGetErrorKey, List.find?]
  · intro h hin hlen
    unfold validate_output
    rw [h]
    simp [pyInError, pyLenJson, hin, hlen]

/-- Witness for C8: a fenced lone-error object is rejected without
consulting the pydantic oracle. -/
theorem validate_output_rejection_witness :
    validate_output
      (fun t => if t = "\x7b\"error\": \"ambiguous\"\x7d"
        then Except.ok (Json.obj [("error", Json.str "ambiguous")])
        else Except.error "nope")
      (fun _ => (PydResult.exn "never reached" : PydResult Unit))
      "```json\n\x7b\"error\": \"ambiguous\"\x7d\n```"
      = Except.ok (none, [RepairErr.llmRejected (some (Json.str "ambiguous"))]) :=
  (validate_output_rejection
      (fun t => if t = "\x7b\"error\": \"ambiguous\"\x7d"
        then Except.ok (Json.obj [("error", Json.str "ambiguous")])
        else Except.error "nope")
      (fun _ => (PydResult.exn "never reached" : PydResult Unit))
      "```json\n\x7b\"error\": \"ambiguous\"\x7d\n```"
      (Json.str "ambiguous") []).1 (by rfl)

/-- Claim C9: with fewer than `table_idx + 1` matches of the
table-number pattern in the page text, `_extract_table_metadata`
returns the position-derived identifier and the sentinel title, and
never raises (the function is total). -/
theorem extract_table_metadata_defaults (page_text : String)
    (page_number : Int) (table_idx : Nat)
    (h : (finditerTableNumbers page_text).length ≤ table_idx) :
    extract_table_metadata page_text page_number table_idx
      = ("Table-" ++ toString page_number ++ "-" ++ toString table_idx,
        "Untitled Table") := by
  unfold extract_table_metadata
  rw [dif_neg (Nat.not_lt.2 h)]

/-- Witness for C9: a page with no table numbers yields the synthesized
defaults at index 0. -/
theorem extract_table_metadata_defaults_witness :
    (finditerTableNumbers "No numbered references appear here.").length ≤ 0
    ∧ extract_table_metadata "No numbered references appear here." 7 0
        = ("Table-7-0", "Untitled Table") :=
  ⟨by decide, by
    rw [extract_table_metadata_defaults _ _ _ (by decide)]
    decide⟩

end Necb
